import Mathlib

/-!
Verification of the note-synthesis core of the piano synthesizer backend
(`main.py`): pitch resolution, waveform generation, ADSR envelope shaping,
velocity and volume scaling, and 16-bit PCM quantization.

The embedding models Python/NumPy semantics explicitly:
* `pyInt` is Python `int()` applied to a float (truncation toward zero);
* `npLinspace` is `np.linspace` (raising on a negative sample count);
* `pySliceAssign` is NumPy slice assignment `a[lo:hi] = rhs`, with Python
  index resolution (negative indices count from the end, bounds clamp) and
  NumPy broadcasting (a length-1 right-hand side fills the slice; any other
  length mismatch raises a broadcast `ValueError`);
* `npInt16` is the NumPy float -> int16 cast: truncation toward zero
  followed by wraparound modulo 2^16 (no clamping);
* sample values live in `ℝ` (ideal-real model of float arithmetic), while
  durations, configuration fields and envelope values are exact rationals.
-/

/-- Errors the Python runtime can raise in the synthesis core. -/
inductive PyError where
  | valueError : PyError
  | indexError : PyError
deriving DecidableEq

/-- `SynthConfig` from `main.py` (per-call synthesizer configuration). -/
structure SynthConfig where
  attack : ℚ
  decay : ℚ
  sustain : ℚ
  release : ℚ
  waveform : String
  volume : ℚ
deriving DecidableEq

/-- The default `SynthConfig()` values from `main.py`. -/
def defaultConfig : SynthConfig :=
  { attack := 5/1000, decay := 1/10, sustain := 3/10, release := 1,
    waveform := "sine", volume := 1/2 }

/-- The fixed sample rate `AudioSynthesizer.SAMPLE_RATE`. -/
def SAMPLE_RATE : ℚ := 44100

/-- Python `int()` applied to a (rational-valued) float: truncation toward zero. -/
def pyInt (x : ℚ) : ℤ := if 0 ≤ x then ⌊x⌋ else ⌈x⌉

/-- C-style float -> integer conversion on reals: truncation toward zero. -/
noncomputable def pyIntR (x : ℝ) : ℤ := if 0 ≤ x then ⌊x⌋ else ⌈x⌉

/-- Reduce an integer into the signed 16-bit range by wraparound modulo 2^16. -/
def wrap16 (z : ℤ) : ℤ := (z + 32768) % 65536 - 32768

/-- The NumPy `np.int16` cast of a float: truncate toward zero, then wrap. -/
noncomputable def npInt16 (x : ℝ) : ℤ := wrap16 (pyIntR x)

/-- `np.sign` on a real sample. -/
noncomputable def pySign (x : ℝ) : ℝ := if x < 0 then -1 else if x = 0 then 0 else 1

/-- Value at index `i` of `np.linspace a b k` (the closed-interval grid with
`k` points; for `k = 1` NumPy returns `[a]`, which the formula also yields
because division by zero is zero in `ℚ`). -/
def linVal (a b : ℚ) (k i : ℕ) : ℚ := a + i * (b - a) / ((k : ℚ) - 1)

/-- `np.linspace a b k` for a nonnegative point count `k`. -/
def linspaceQ (a b : ℚ) (k : ℕ) : List ℚ := (List.range k).map fun i => linVal a b k i

/-- `np.linspace a b num`: raises `ValueError` when `num` is negative. -/
def npLinspace (a b : ℚ) (num : ℤ) : Except PyError (List ℚ) :=
  if num < 0 then .error .valueError else .ok (linspaceQ a b num.toNat)

/-- Python slice-bound resolution on a sequence of length `n`: a negative
bound counts from the end; out-of-range bounds clamp. -/
def pyResolve (b : ℤ) (n : ℕ) : ℕ := if b < 0 then (n + b).toNat else min b.toNat n

/-- Overwrite the segment of `l` starting at `lo` with `rhs`. -/
def setSeg (l : List ℚ) (lo : ℕ) (rhs : List ℚ) : List ℚ :=
  l.take lo ++ rhs ++ l.drop (lo + rhs.length)

/-- NumPy slice assignment `l[lo:hi] = rhs`: succeeds when the right-hand
side length equals the resolved slice extent, or broadcasts when the
right-hand side has length 1; otherwise raises a broadcast `ValueError`. -/
def pySliceAssign (l : List ℚ) (lo hi : ℤ) (rhs : List ℚ) : Except PyError (List ℚ) :=
  if rhs.length = pyResolve hi l.length - pyResolve lo l.length then
    .ok (setSeg l (pyResolve lo l.length) rhs)
  else if rhs.length = 1 then
    .ok (setSeg l (pyResolve lo l.length)
      (List.replicate (pyResolve hi l.length - pyResolve lo l.length) (rhs.getD 0 0)))
  else .error .valueError

/-- NumPy slice assignment of a scalar, `l[lo:hi] = v`: always succeeds. -/
def pySliceAssignScalar (l : List ℚ) (lo hi : ℤ) (v : ℚ) : List ℚ :=
  setSeg l (pyResolve lo l.length)
    (List.replicate (pyResolve hi l.length - pyResolve lo l.length) v)

/-- The `NOTE_FREQUENCIES` table from `main.py` (base frequencies at octave 4). -/
def NOTE_FREQUENCIES : List (List Char × ℚ) :=
  [(['C'], 26163/100), (['C', '#'], 27718/100), (['D'], 29366/100), (['D', '#'], 31113/100),
   (['E'], 32963/100), (['F'], 34923/100), (['F', '#'], 36999/100), (['G'], 392),
   (['G', '#'], 41530/100), (['A'], 440), (['A', '#'], 46616/100), (['B'], 49388/100)]

/-- Dictionary lookup in the note-frequency table. -/
def noteFreq? (name : List Char) : Option ℚ := NOTE_FREQUENCIES.lookup name

/-- The note-parsing and frequency-calculation steps of
`AudioSynthesizer.synthesize_note` (lines 117-122): `note[-1]` raises
`IndexError` on an empty string; a trailing digit is the octave (default 4);
an unknown pitch class defaults to 440 Hz; the result is
`base_freq * 2 ** (octave - 4)`. -/
def resolveFrequency (note : List Char) : Except PyError ℚ :=
  match note.getLast? with
  | none => .error .indexError
  | some c =>
    let noteName := if c.isDigit then note.dropLast else note
    let octave : ℤ := if c.isDigit then (c.toNat : ℤ) - 48 else 4
    let baseFreq := (noteFreq? noteName).getD 440
    .ok (baseFreq * (2 : ℚ) ^ (octave - 4))

/-- `int(self.SAMPLE_RATE * duration)`, the sample count of
`generate_waveform`. -/
def sampleCount (duration : ℚ) : ℤ := pyInt (SAMPLE_RATE * duration)

/-- The time grid `t = np.linspace(0, duration, int(SAMPLE_RATE * duration))`
(values only; the negative-count error case is handled in `generateWaveform`). -/
def sampleTimes (duration : ℚ) : List ℚ := linspaceQ 0 duration (sampleCount duration).toNat

/-- One sample of `AudioSynthesizer.generate_waveform` at time `t`, following
the `if`-chain on the waveform string (unknown kinds fall through to sine). -/
noncomputable def srcSample (waveform : String) (frequency t : ℚ) : ℝ :=
  if waveform = "sine" then Real.sin (2 * Real.pi * (frequency : ℝ) * (t : ℝ))
  else if waveform = "square" then pySign (Real.sin (2 * Real.pi * (frequency : ℝ) * (t : ℝ)))
  else if waveform = "sawtooth" then
    2 * ((t : ℝ) * (frequency : ℝ) - (⌊(1/2 : ℝ) + (t : ℝ) * (frequency : ℝ)⌋ : ℤ))
  else if waveform = "triangle" then
    2 * |2 * ((t : ℝ) * (frequency : ℝ) - (⌊(1/2 : ℝ) + (t : ℝ) * (frequency : ℝ)⌋ : ℤ))| - 1
  else Real.sin (2 * Real.pi * (frequency : ℝ) * (t : ℝ))

/-- `AudioSynthesizer.generate_waveform` (lines 67-82). -/
noncomputable def generateWaveform (frequency duration : ℚ) (waveform : String) :
    Except PyError (List ℝ) :=
  (npLinspace 0 duration (sampleCount duration)).map fun ts =>
    ts.map (srcSample waveform frequency)

/-- `attack_samples = int(self.config.attack * self.SAMPLE_RATE)` (line 87). -/
def attackSamples (cfg : SynthConfig) : ℤ := pyInt (cfg.attack * SAMPLE_RATE)

/-- `decay_samples = int(self.config.decay * self.SAMPLE_RATE)` (line 88). -/
def decaySamples (cfg : SynthConfig) : ℤ := pyInt (cfg.decay * SAMPLE_RATE)

/-- `release_samples = int(self.config.release * self.SAMPLE_RATE)` (line 89). -/
def releaseSamples (cfg : SynthConfig) : ℤ := pyInt (cfg.release * SAMPLE_RATE)

/-- The attack write: `envelope[:attack_samples] = np.linspace(0, 1, attack_samples)`
guarded by `attack_samples > 0`. -/
def adsrAttack (attackN : ℤ) (env : List ℚ) : Except PyError (List ℚ) :=
  if 0 < attackN then pySliceAssign env 0 attackN (linspaceQ 0 1 attackN.toNat)
  else .ok env

/-- The decay write: `envelope[attack_samples:decay_end] = np.linspace(1, sustain, decay_samples)`
guarded by `decay_samples > 0 and attack_samples + decay_samples < total_samples`. -/
def adsrDecay (attackN decayN : ℤ) (sustain : ℚ) (n : ℕ) (env : List ℚ) :
    Except PyError (List ℚ) :=
  if 0 < decayN ∧ attackN + decayN < (n : ℤ) then
    pySliceAssign env attackN (attackN + decayN) (linspaceQ 1 sustain decayN.toNat)
  else .ok env

/-- The sustain write: `envelope[sustain_start:sustain_end] = sustain`
guarded by `sustain_start < sustain_end`. -/
def adsrSustainStep (attackN decayN releaseN : ℤ) (sustain : ℚ) (n : ℕ) (env : List ℚ) :
    List ℚ :=
  if attackN + decayN < (n : ℤ) - releaseN then
    pySliceAssignScalar env (attackN + decayN) ((n : ℤ) - releaseN) sustain
  else env

/-- The release write: `envelope[-release_samples:] = np.linspace(sustain, 0, release_samples)`
guarded by `release_samples > 0`. -/
def adsrRelease (releaseN : ℤ) (sustain : ℚ) (n : ℕ) (env : List ℚ) :
    Except PyError (List ℚ) :=
  if 0 < releaseN then pySliceAssign env (-releaseN) (n : ℤ) (linspaceQ sustain 0 releaseN.toNat)
  else .ok env

/-- The body of `AudioSynthesizer.apply_adsr_envelope` with the three segment
sample counts abstracted as parameters: the envelope starts as `np.ones`,
the four segment writes are applied in order, and the result is
`wave * envelope * volume`. -/
noncomputable def applyAdsrCounts (attackN decayN releaseN : ℤ) (sustain volume : ℚ)
    (wave : List ℝ) : Except PyError (List ℝ) :=
  (adsrAttack attackN (List.replicate wave.length 1)).bind fun env1 =>
  (adsrDecay attackN decayN sustain wave.length env1).bind fun env2 =>
  (adsrRelease releaseN sustain wave.length
      (adsrSustainStep attackN decayN releaseN sustain wave.length env2)).map fun env4 =>
    wave.zipWith (fun (w : ℝ) (e : ℚ) => w * (e : ℝ) * (volume : ℝ)) env4

/-- `AudioSynthesizer.apply_adsr_envelope` (lines 84-112); the `duration`
argument is accepted and ignored, as in the source. -/
noncomputable def applyAdsrEnvelope (cfg : SynthConfig) (wave : List ℝ) (duration : ℚ) :
    Except PyError (List ℝ) :=
  applyAdsrCounts (attackSamples cfg) (decaySamples cfg) (releaseSamples cfg)
    cfg.sustain cfg.volume wave

/-- `AudioSynthesizer.synthesize_note` (lines 114-134), up to and including
the 16-bit PCM conversion `np.int16(wave * 32767)`; the WAV container
wrapping is outside the synthesis core. -/
noncomputable def synthesizeNote (note : List Char) (velocity duration : ℚ)
    (cfg : SynthConfig) : Except PyError (List ℤ) :=
  (resolveFrequency note).bind fun frequency =>
  (generateWaveform frequency duration cfg.waveform).bind fun wave =>
  (applyAdsrEnvelope cfg wave duration).map fun enveloped =>
    (enveloped.map fun x => x * (velocity : ℝ)).map fun x => npInt16 (x * 32767)

/-- The per-index envelope value described by the specification: segments
written in the fixed order attack, decay, sustain, release over an initial
all-ones buffer, so a later segment wins at any overlapping index and
uncovered indices keep the value 1. -/
def adsrEnvelopeSpec (attackN decayN releaseN : ℕ) (sustain : ℚ) (n i : ℕ) : ℚ :=
  if 0 < releaseN ∧ n - releaseN ≤ i then linVal sustain 0 releaseN (i - (n - releaseN))
  else if attackN + decayN ≤ i ∧ i < n - releaseN then sustain
  else if attackN + decayN < n ∧ attackN ≤ i ∧ i < attackN + decayN then
    linVal 1 sustain decayN (i - attackN)
  else if i < attackN then linVal 0 1 attackN i
  else 1

/-- The waveform formula stated by the specification, as a function of the
phase `frequency * t`; any kind other than square, sawtooth and triangle
(including every unrecognized kind) yields the sine output. -/
noncomputable def claimFormula (kind : String) (phase : ℝ) : ℝ :=
  if kind = "square" then pySign (Real.sin (2 * Real.pi * phase))
  else if kind = "sawtooth" then 2 * (phase - (⌊(1/2 : ℝ) + phase⌋ : ℤ))
  else if kind = "triangle" then 2 * |2 * (phase - (⌊(1/2 : ℝ) + phase⌋ : ℤ))| - 1
  else Real.sin (2 * Real.pi * phase)

/-! ### Basic lemmas about the NumPy primitives -/

theorem linspaceQ_length (a b : ℚ) (k : ℕ) : (linspaceQ a b k).length = k := by
  simp [linspaceQ]

theorem linspaceQ_getD (a b : ℚ) (k i : ℕ) (h : i < k) (d : ℚ) :
    (linspaceQ a b k).getD i d = linVal a b k i := by
  simp [linspaceQ, List.getD_eq_getElem?_getD, List.getElem?_map, List.getElem?_range, h]

theorem pyResolve_le (b : ℤ) (n : ℕ) : pyResolve b n ≤ n := by
  unfold pyResolve; split_ifs <;> omega

theorem pyResolve_of_nonneg (b : ℤ) (n : ℕ) (h0 : 0 ≤ b) (h : b ≤ (n : ℤ)) :
    pyResolve b n = b.toNat := by
  unfold pyResolve; split_ifs <;> omega

theorem pyResolve_of_neg (r n : ℕ) (h0 : 0 < r) (h : r ≤ n) :
    pyResolve (-(r : ℤ)) n = n - r := by
  unfold pyResolve; split_ifs <;> omega

theorem setSeg_length (l rhs : List ℚ) (lo : ℕ) (h : lo + rhs.length ≤ l.length) :
    (setSeg l lo rhs).length = l.length := by
  simp [setSeg]; omega

theorem setSeg_getD (l rhs : List ℚ) (lo : ℕ) (h : lo + rhs.length ≤ l.length) (i : ℕ) (d : ℚ) :
    (setSeg l lo rhs).getD i d =
      if lo ≤ i ∧ i < lo + rhs.length then rhs.getD (i - lo) d else l.getD i d := by
  have htake : (l.take lo).length = lo := by simp; omega
  simp only [setSeg, List.getD_eq_getElem?_getD, List.getElem?_append, List.length_append, htake,
    List.getElem?_take, List.getElem?_drop]
  split_ifs with h1 h2 h3 h4 h5
  all_goals first
    | rfl
    | (exfalso; omega)
    | (have hx : lo + rhs.length + (i - (lo + rhs.length)) = i := by omega
       rw [hx])

theorem pySliceAssign_ok_length {l rhs out : List ℚ} {lo hi : ℤ}
    (h : pySliceAssign l lo hi rhs = .ok out) : out.length = l.length := by
  have h1 := pyResolve_le lo l.length
  have h2 := pyResolve_le hi l.length
  unfold pySliceAssign at h
  split at h
  · cases h; exact setSeg_length _ _ _ (by omega)
  · split at h
    · cases h; exact setSeg_length _ _ _ (by simp; omega)
    · cases h

theorem pySliceAssignScalar_length (l : List ℚ) (lo hi : ℤ) (v : ℚ) :
    (pySliceAssignScalar l lo hi v).length = l.length := by
  have h1 := pyResolve_le lo l.length
  have h2 := pyResolve_le hi l.length
  unfold pySliceAssignScalar
  exact setSeg_length _ _ _ (by simp; omega)

theorem setSeg_getD_replicate (l : List ℚ) (lo ext : ℕ) (v : ℚ)
    (h : lo + ext ≤ l.length) (i : ℕ) (d : ℚ) :
    (setSeg l lo (List.replicate ext v)).getD i d =
      if lo ≤ i ∧ i < lo + ext then v else l.getD i d := by
  rw [setSeg_getD _ _ _ (by simpa using h)]
  simp only [List.length_replicate]
  split_ifs with h1
  · rw [List.getD_eq_getElem?_getD, List.getElem?_replicate, if_pos (by omega)]
    rfl
  · rfl

theorem bind_ok_eq {α β : Type} (a : α) (f : α → Except PyError β) :
    (Except.ok a : Except PyError α).bind f = f a := rfl

theorem map_ok_eq {α β : Type} (a : α) (f : α → β) :
    (Except.ok a : Except PyError α).map f = .ok (f a) := rfl

theorem bind_error_eq {α β : Type} (e : PyError) (f : α → Except PyError β) :
    (Except.error e : Except PyError α).bind f = .error e := rfl

theorem pySliceAssign_exact (l rhs : List ℚ) (lo hi : ℤ) (n : ℕ)
    (h1 : pyResolve lo l.length = n)
    (h2 : pyResolve hi l.length = n + rhs.length) :
    pySliceAssign l lo hi rhs = .ok (setSeg l n rhs) := by
  unfold pySliceAssign
  rw [h1, h2, if_pos (by omega)]

/-! ### Per-step characterization of the envelope writes (for in-bounds counts) -/

theorem adsrAttack_ok (aN : ℕ) (env : List ℚ) (h : aN ≤ env.length) :
    ∃ out, adsrAttack (aN : ℤ) env = .ok out ∧ out.length = env.length ∧
      ∀ i, i < env.length →
        out.getD i 1 = if i < aN then linVal 0 1 aN i else env.getD i 1 := by
  by_cases h0 : 0 < aN
  · refine ⟨setSeg env 0 (linspaceQ 0 1 aN), ?_, ?_, ?_⟩
    · unfold adsrAttack
      rw [if_pos (by exact_mod_cast h0), Int.toNat_natCast]
      exact pySliceAssign_exact env (linspaceQ 0 1 aN) 0 (aN : ℤ) 0
        (pyResolve_of_nonneg 0 env.length le_rfl (by exact_mod_cast Nat.zero_le _))
        (by rw [pyResolve_of_nonneg _ _ (Int.natCast_nonneg aN) (by exact_mod_cast h),
            Int.toNat_natCast, linspaceQ_length]
            omega)
    · exact setSeg_length _ _ _ (by simp [linspaceQ_length]; omega)
    · intro i hi
      rw [setSeg_getD _ _ _ (by simp [linspaceQ_length]; omega)]
      simp only [linspaceQ_length, Nat.zero_add]
      by_cases hc : i < aN
      · rw [if_pos (by omega), linspaceQ_getD _ _ _ _ (by omega), Nat.sub_zero, if_pos hc]
      · rw [if_neg (by omega), if_neg hc]
  · refine ⟨env, ?_, rfl, ?_⟩
    · unfold adsrAttack
      rw [if_neg (by exact_mod_cast h0)]
    · intro i hi
      rw [if_neg (by omega)]

theorem adsrDecay_ok (aN dN : ℕ) (s : ℚ) (n : ℕ) (env : List ℚ)
    (hlen : env.length = n) (hA : aN ≤ n) :
    ∃ out, adsrDecay (aN : ℤ) (dN : ℤ) s n env = .ok out ∧ out.length = n ∧
      ∀ i, i < n →
        out.getD i 1 =
          if aN + dN < n ∧ aN ≤ i ∧ i < aN + dN then linVal 1 s dN (i - aN)
          else env.getD i 1 := by
  by_cases hg : 0 < dN ∧ aN + dN < n
  · refine ⟨setSeg env aN (linspaceQ 1 s dN), ?_, ?_, ?_⟩
    · unfold adsrDecay
      rw [if_pos (by omega), Int.toNat_natCast]
      exact pySliceAssign_exact env (linspaceQ 1 s dN) (aN : ℤ) ((aN : ℤ) + (dN : ℤ)) aN
        (by rw [hlen, pyResolve_of_nonneg _ _ (Int.natCast_nonneg aN) (by exact_mod_cast hA)]
            omega)
        (by rw [hlen, pyResolve_of_nonneg _ _ (by positivity) (by omega),
            linspaceQ_length]
            omega)
    · rw [setSeg_length _ _ _ (by rw [hlen]; simp [linspaceQ_length]; omega), hlen]
    · intro i hi
      rw [setSeg_getD _ _ _ (by rw [hlen]; simp [linspaceQ_length]; omega)]
      simp only [linspaceQ_length]
      by_cases hc : aN + dN < n ∧ aN ≤ i ∧ i < aN + dN
      · rw [if_pos (by omega), linspaceQ_getD _ _ _ _ (by omega), if_pos hc]
      · rw [if_neg (by omega), if_neg hc]
  · refine ⟨env, ?_, hlen, ?_⟩
    · unfold adsrDecay
      rw [if_neg (by omega)]
    · intro i hi
      rw [if_neg (by omega)]

theorem adsrSustain_char (aN dN rN : ℕ) (s : ℚ) (n : ℕ) (env : List ℚ)
    (hlen : env.length = n) (hR : rN ≤ n) :
    (adsrSustainStep (aN : ℤ) (dN : ℤ) (rN : ℤ) s n env).length = n ∧
      ∀ i, i < n →
        (adsrSustainStep (aN : ℤ) (dN : ℤ) (rN : ℤ) s n env).getD i 1 =
          if aN + dN ≤ i ∧ i < n - rN then s else env.getD i 1 := by
  by_cases hg : aN + dN < n - rN
  · unfold adsrSustainStep
    rw [if_pos (by omega)]
    unfold pySliceAssignScalar
    have e1 : pyResolve ((aN : ℤ) + (dN : ℤ)) env.length = aN + dN := by
      rw [hlen, pyResolve_of_nonneg _ _ (by positivity) (by omega)]
      omega
    have e2 : pyResolve ((n : ℤ) - (rN : ℤ)) env.length = n - rN := by
      rw [hlen, pyResolve_of_nonneg _ _ (by omega) (by omega)]
      omega
    rw [e1, e2]
    constructor
    · rw [setSeg_length _ _ _ (by rw [hlen]; simp; omega), hlen]
    · intro i hi
      rw [setSeg_getD_replicate _ _ _ _ (by rw [hlen]; omega)]
      by_cases hc : aN + dN ≤ i ∧ i < n - rN
      · rw [if_pos (by omega), if_pos hc]
      · rw [if_neg (by omega), if_neg hc]
  · unfold adsrSustainStep
    rw [if_neg (by omega)]
    exact ⟨hlen, fun i hi => by rw [if_neg (by omega)]⟩

theorem adsrRelease_ok (rN : ℕ) (s : ℚ) (n : ℕ) (env : List ℚ)
    (hlen : env.length = n) (hR : rN ≤ n) :
    ∃ out, adsrRelease (rN : ℤ) s n env = .ok out ∧ out.length = n ∧
      ∀ i, i < n →
        out.getD i 1 =
          if 0 < rN ∧ n - rN ≤ i then linVal s 0 rN (i - (n - rN))
          else env.getD i 1 := by
  by_cases h0 : 0 < rN
  · refine ⟨setSeg env (n - rN) (linspaceQ s 0 rN), ?_, ?_, ?_⟩
    · unfold adsrRelease
      rw [if_pos (by exact_mod_cast h0), Int.toNat_natCast]
      exact pySliceAssign_exact env (linspaceQ s 0 rN) (-(rN : ℤ)) (n : ℤ) (n - rN)
        (by rw [hlen]; exact pyResolve_of_neg rN n h0 hR)
        (by rw [hlen, pyResolve_of_nonneg _ _ (Int.natCast_nonneg n) le_rfl,
            Int.toNat_natCast, linspaceQ_length]
            omega)
    · rw [setSeg_length _ _ _ (by rw [hlen]; simp [linspaceQ_length]; omega), hlen]
    · intro i hi
      rw [setSeg_getD _ _ _ (by rw [hlen]; simp [linspaceQ_length]; omega)]
      simp only [linspaceQ_length]
      by_cases hc : 0 < rN ∧ n - rN ≤ i
      · rw [if_pos (by omega), linspaceQ_getD _ _ _ _ (by omega), if_pos hc]
      · rw [if_neg (by omega), if_neg hc]
  · refine ⟨env, ?_, hlen, ?_⟩
    · unfold adsrRelease
      rw [if_neg (by exact_mod_cast h0)]
    · intro i hi
      rw [if_neg (by omega)]

/-! ### C6: the full envelope shape -/

/-- C6: for segment counts with `attackN <= totalSamples` and
`releaseN <= totalSamples`, the envelope is the attack ramp on `[0, attackN)`,
the decay ramp on `[attackN, attackN+decayN)` when `attackN+decayN < totalSamples`,
the constant sustain on `[attackN+decayN, totalSamples-releaseN)` when non-empty,
the release ramp on the last `releaseN` indices (written last, overwriting any
overlap), the default value 1 everywhere else, and the output at index `i` is
`samples[i] * envelope[i] * volume`. -/
theorem c6_envelope (attackN decayN releaseN : ℕ) (sustain volume : ℚ) (wave : List ℝ)
    (hA : attackN ≤ wave.length) (hR : releaseN ≤ wave.length) :
    applyAdsrCounts (attackN : ℤ) (decayN : ℤ) (releaseN : ℤ) sustain volume wave =
      .ok ((List.range wave.length).map fun i =>
        wave.getD i 0 *
          ((adsrEnvelopeSpec attackN decayN releaseN sustain wave.length i : ℚ) : ℝ) *
          (volume : ℝ)) := by
  obtain ⟨env1, h1eq, h1len, h1get⟩ :=
    adsrAttack_ok attackN (List.replicate wave.length 1) (by simpa using hA)
  rw [List.length_replicate] at h1len h1get
  obtain ⟨env2, h2eq, h2len, h2get⟩ :=
    adsrDecay_ok attackN decayN sustain wave.length env1 h1len hA
  obtain ⟨h3len, h3get⟩ :=
    adsrSustain_char attackN decayN releaseN sustain wave.length env2 h2len hR
  obtain ⟨env4, h4eq, h4len, h4get⟩ :=
    adsrRelease_ok releaseN sustain wave.length
      (adsrSustainStep (attackN : ℤ) (decayN : ℤ) (releaseN : ℤ) sustain wave.length env2)
      h3len hR
  unfold applyAdsrCounts
  rw [h1eq]
  simp only [bind_ok_eq]
  rw [h2eq]
  simp only [bind_ok_eq]
  rw [h4eq]
  simp only [map_ok_eq]
  congr 1
  apply List.ext_getElem
  · simp [h4len]
  · intro i hi1 hi2
    have hiw : i < wave.length := by
      simp [List.length_zipWith, h4len] at hi1
      omega
    simp only [List.getElem_zipWith, List.getElem_map, List.getElem_range]
    rw [List.getD_eq_getElem wave 0 hiw]
    rw [← List.getD_eq_getElem env4 1 (show i < env4.length by omega)]
    rw [h4get i hiw, h3get i hiw, h2get i hiw, h1get i hiw]
    have hrep : (List.replicate wave.length (1 : ℚ)).getD i 1 = 1 := by
      simp [List.getD_eq_getElem?_getD, List.getElem?_replicate, hiw]
    rw [hrep]
    unfold adsrEnvelopeSpec
    rfl

theorem map_error_eq {α β : Type} (e : PyError) (f : α → β) :
    (Except.error e : Except PyError α).map f = .error e := rfl

theorem adsrAttack_ok_length {aN : ℤ} {env out : List ℚ} (h : adsrAttack aN env = .ok out) :
    out.length = env.length := by
  unfold adsrAttack at h
  split at h
  · exact pySliceAssign_ok_length h
  · cases h; rfl

theorem adsrDecay_ok_length {aN dN : ℤ} {s : ℚ} {n : ℕ} {env out : List ℚ}
    (h : adsrDecay aN dN s n env = .ok out) : out.length = env.length := by
  unfold adsrDecay at h
  split at h
  · exact pySliceAssign_ok_length h
  · cases h; rfl

theorem adsrSustainStep_length (aN dN rN : ℤ) (s : ℚ) (n : ℕ) (env : List ℚ) :
    (adsrSustainStep aN dN rN s n env).length = env.length := by
  unfold adsrSustainStep
  split
  · exact pySliceAssignScalar_length _ _ _ _
  · rfl

theorem adsrRelease_ok_length {rN : ℤ} {s : ℚ} {n : ℕ} {env out : List ℚ}
    (h : adsrRelease rN s n env = .ok out) : out.length = env.length := by
  unfold adsrRelease at h
  split at h
  · exact pySliceAssign_ok_length h
  · cases h; rfl

theorem applyAdsrCounts_ok_length {aN dN rN : ℤ} {s v : ℚ} {w out : List ℝ}
    (h : applyAdsrCounts aN dN rN s v w = .ok out) : out.length = w.length := by
  unfold applyAdsrCounts at h
  cases h1 : adsrAttack aN (List.replicate w.length 1) with
  | error e => rw [h1, bind_error_eq] at h; cases h
  | ok env1 =>
    rw [h1, bind_ok_eq] at h
    cases h2 : adsrDecay aN dN s w.length env1 with
    | error e => rw [h2, bind_error_eq] at h; cases h
    | ok env2 =>
      rw [h2, bind_ok_eq] at h
      cases h4 : adsrRelease rN s w.length (adsrSustainStep aN dN rN s w.length env2) with
      | error e => rw [h4, map_error_eq] at h; cases h
      | ok env4 =>
        rw [h4, map_ok_eq] at h
        cases h
        have l1 : env1.length = w.length := by
          have := adsrAttack_ok_length h1
          simpa using this
        have l2 : env2.length = w.length := by rw [adsrDecay_ok_length h2, l1]
        have l4 : env4.length = w.length := by
          rw [adsrRelease_ok_length h4, adsrSustainStep_length, l2]
        simp [List.length_zipWith, l4]

theorem pyInt_nonneg {x : ℚ} (h : 0 ≤ x) : 0 ≤ pyInt x := by
  unfold pyInt
  rw [if_pos h]
  exact Int.floor_nonneg.mpr h

/-! ### C5: buffer length -/

/-- C5 (amended): for every positive duration the sample buffer has length
`int(44100 * duration)`, i.e. the truncation (not the rounding) of
`44100 * duration`, and whenever envelope application succeeds the derived
PCM buffer has that same length. -/
theorem c5_trunc_length : ∀ d : ℚ, 0 < d → ∀ (f : ℚ) (kind : String),
    ∃ l, generateWaveform f d kind = .ok l ∧ l.length = (sampleCount d).toNat ∧
      ∀ (cfg : SynthConfig) (dur : ℚ) (out : List ℝ),
        applyAdsrEnvelope cfg l dur = .ok out →
          (out.map fun x => npInt16 (x * 32767)).length = (sampleCount d).toNat := by
  intro d hd f kind
  refine ⟨(sampleTimes d).map (srcSample kind f), ?_, ?_, ?_⟩
  · unfold generateWaveform npLinspace
    have hnn : 0 ≤ sampleCount d := pyInt_nonneg (by unfold SAMPLE_RATE; positivity)
    rw [if_neg (by omega)]
    rfl
  · simp [sampleTimes, linspaceQ_length]
  · intro cfg dur out h
    have hl := applyAdsrCounts_ok_length h
    simp only [List.length_map] at hl ⊢
    rw [hl]
    simp [sampleTimes, linspaceQ_length]

/-- C5 (counterexample): at duration `19/441000` the product
`44100 * duration = 1.9`, so the code produces 1 sample while the claimed
`round` rule demands 2: the length is the truncation, not the rounding. -/
theorem c5_round_counterexample :
    ∃ l, generateWaveform 440 (19/441000) "sine" = .ok l ∧ l.length = 1 ∧
      round (SAMPLE_RATE * (19/441000 : ℚ)) = 2 ∧
      (l.length : ℤ) ≠ round (SAMPLE_RATE * (19/441000 : ℚ)) := by
  have hsc : sampleCount (19/441000) = 1 := by
    unfold sampleCount pyInt SAMPLE_RATE
    rw [if_pos (by norm_num)]
    norm_num
  have hrd : round (SAMPLE_RATE * (19/441000 : ℚ)) = 2 := by
    unfold SAMPLE_RATE
    rw [round_eq]
    norm_num
  refine ⟨(sampleTimes (19/441000)).map (srcSample "sine" 440), ?_, ?_, hrd, ?_⟩
  · unfold generateWaveform npLinspace
    rw [if_neg (by omega)]
    rfl
  · simp [sampleTimes, linspaceQ_length, hsc]
  · simp [sampleTimes, linspaceQ_length, hsc, hrd]

/-- C5 (witness): at duration 1 the buffer has `int(44100 * 1) = 44100`
samples. -/
theorem c5_witness :
    (0 < (1 : ℚ) ∧ (sampleCount 1).toNat = 44100) ∧
    (∃ l, generateWaveform 440 1 "sine" = .ok l ∧ l.length = (sampleCount 1).toNat ∧
      ∀ (cfg : SynthConfig) (dur : ℚ) (out : List ℝ),
        applyAdsrEnvelope cfg l dur = .ok out →
          (out.map fun x => npInt16 (x * 32767)).length = (sampleCount 1).toNat) :=
  ⟨⟨by norm_num, by unfold sampleCount pyInt SAMPLE_RATE; rw [if_pos (by norm_num)]; norm_num; rfl⟩,
    c5_trunc_length 1 (by norm_num) 440 "sine"⟩

/-! ### C7: segment sample counts -/

/-- C7 (amended): the three envelope segment counts are
`int(attack * 44100)`, `int(decay * 44100)`, `int(release * 44100)` —
truncation toward zero, not rounding — computed from the configuration alone,
and the envelope stage consumes the buffer only through these three counts
(no rescaling to fit the duration). -/
theorem c7_trunc_counts : ∀ cfg : SynthConfig,
    attackSamples cfg = pyInt (cfg.attack * SAMPLE_RATE) ∧
    decaySamples cfg = pyInt (cfg.decay * SAMPLE_RATE) ∧
    releaseSamples cfg = pyInt (cfg.release * SAMPLE_RATE) ∧
    ∀ (wave : List ℝ) (dur : ℚ),
      applyAdsrEnvelope cfg wave dur =
        applyAdsrCounts (attackSamples cfg) (decaySamples cfg) (releaseSamples cfg)
          cfg.sustain cfg.volume wave :=
  fun _ => ⟨rfl, rfl, rfl, fun _ _ => rfl⟩

/-- C7 (counterexample): for `attack = 2209/441000` (so `attack * 44100 = 220.9`)
the code computes the attack count 220 by truncation, while the claimed
rounding rule gives 221. -/
theorem c7_round_counterexample :
    attackSamples
        { attack := 2209/441000, decay :=  1/10, sustain := 3/10, release := 1,
          waveform := "sine", volume := 1/2 } = 220 ∧
      round ((2209/441000 : ℚ) * SAMPLE_RATE) = 221 ∧
      attackSamples
        { attack := 2209/441000, decay := 1/10, sustain := 3/10, release := 1,
          waveform := "sine", volume := 1/2 } ≠
        round ((2209/441000 : ℚ) * SAMPLE_RATE) := by
  have h1 : attackSamples
      { attack := 2209/441000, decay := 1/10, sustain := 3/10, release := 1,
        waveform := "sine", volume := 1/2 } = 220 := by
    unfold attackSamples pyInt SAMPLE_RATE
    rw [if_pos (by norm_num)]
    norm_num
  have h2 : round ((2209/441000 : ℚ) * SAMPLE_RATE) = 221 := by
    unfold SAMPLE_RATE
    rw [round_eq]
    norm_num
  exact ⟨h1, h2, by rw [h1, h2]; decide⟩

/-! ### C2: quantization -/

/-- C2: the claim that each sample is quantized as `round(s * 32767)` and
clamped into `[-32768, 32767]` fails on the code: `np.int16(wave * 32767)`
truncates toward zero (the sample 7/10 maps to 22936, not `round(22936.9) = 22937`)
and wraps out-of-range values modulo 2^16 instead of clamping (the sample 2
maps to -2, not 32767). -/
theorem c2_quantize_wraps :
    npInt16 ((2 : ℝ) * 32767) = -2 ∧ npInt16 ((7/10 : ℝ) * 32767) = 22936 := by
  constructor
  · have h1 : pyIntR ((2 : ℝ) * 32767) = 65534 := by
      unfold pyIntR; rw [if_pos (by norm_num)]; norm_num
    rw [npInt16, h1]; decide
  · have h1 : pyIntR ((7/10 : ℝ) * 32767) = 22936 := by
      unfold pyIntR; rw [if_pos (by norm_num)]; norm_num
    rw [npInt16, h1]; decide

/-! ### C3: malformed note specs -/

/-- C3: the claim that frequency resolution never fails, including on the
empty string, is contradicted by the code: `note[-1]` on the empty string
raises `IndexError` before any fallback can apply. -/
theorem c3_empty_note_raises : resolveFrequency [] = .error .indexError := rfl

/-- C6 (witness): instance with counts 2, 1, 2 on a 5-sample buffer. -/
theorem c6_witness :
    ((2 : ℕ) ≤ (List.replicate 5 (0 : ℝ)).length ∧
      (2 : ℕ) ≤ (List.replicate 5 (0 : ℝ)).length) ∧
    applyAdsrCounts ((2 : ℕ) : ℤ) ((1 : ℕ) : ℤ) ((2 : ℕ) : ℤ) (1/2) 1
        (List.replicate 5 (0 : ℝ)) =
      .ok ((List.range (List.replicate 5 (0 : ℝ)).length).map fun i =>
        (List.replicate 5 (0 : ℝ)).getD i 0 *
          ((adsrEnvelopeSpec 2 1 2 (1/2) (List.replicate 5 (0 : ℝ)).length i : ℚ) : ℝ) *
          ((1 : ℚ) : ℝ)) :=
  ⟨⟨by simp, by simp⟩, c6_envelope 2 1 2 (1/2) 1 (List.replicate 5 0) (by simp) (by simp)⟩

/-! ### Shared evaluation facts for the crash scenarios -/

theorem attackSamples_default : attackSamples defaultConfig = 220 := by
  unfold attackSamples pyInt SAMPLE_RATE defaultConfig
  rw [if_pos (by norm_num)]
  norm_num

theorem resolveFrequency_A4 : resolveFrequency ['A', '4'] =
    .ok ((440 : ℚ) * (2 : ℚ) ^ ((((52 : ℕ) : ℤ) - 48) - 4)) := rfl

/-! ### C1: the short-note scenario -/

/-- C1: the claim that synthesis with `duration = 0.001` and the default
config succeeds with the attack ramp clamped to the buffer is contradicted
by the code: the buffer has `int(44100 * 0.001) = 44` samples while
`np.linspace(0, 1, 220)` has 220, so the attack assignment
`envelope[:220] = linspace` raises a broadcast `ValueError`. -/
theorem c1_short_note_crashes :
    synthesizeNote ['A', '4'] (8/10) (1/1000) defaultConfig = .error .valueError := by
  unfold synthesizeNote
  rw [resolveFrequency_A4]
  simp only [bind_ok_eq]
  have hsc : sampleCount (1/1000) = 44 := by
    unfold sampleCount pyInt SAMPLE_RATE
    rw [if_pos (by norm_num)]
    norm_num
  have hwave : generateWaveform ((440 : ℚ) * (2 : ℚ) ^ ((((52 : ℕ) : ℤ) - 48) - 4)) (1/1000)
      defaultConfig.waveform =
      .ok ((sampleTimes (1/1000)).map
        (srcSample defaultConfig.waveform
          ((440 : ℚ) * (2 : ℚ) ^ ((((52 : ℕ) : ℤ) - 48) - 4)))) := by
    unfold generateWaveform npLinspace
    rw [if_neg (by rw [hsc]; decide)]
    rfl
  rw [hwave]
  simp only [bind_ok_eq]
  have hlen : ((sampleTimes (1/1000)).map
      (srcSample defaultConfig.waveform
        ((440 : ℚ) * (2 : ℚ) ^ ((((52 : ℕ) : ℤ) - 48) - 4)))).length = 44 := by
    rw [List.length_map]
    unfold sampleTimes
    rw [linspaceQ_length, hsc]
    rfl
  unfold applyAdsrEnvelope applyAdsrCounts
  rw [hlen, attackSamples_default]
  have hatt : adsrAttack (220 : ℤ) (List.replicate 44 (1 : ℚ)) = .error .valueError := by
    unfold adsrAttack
    rw [if_pos (by decide)]
    unfold pySliceAssign
    have e1 : pyResolve 0 (List.replicate 44 (1 : ℚ)).length = 0 := by
      simp [pyResolve]
    have e2 : pyResolve 220 (List.replicate 44 (1 : ℚ)).length = 44 := by
      unfold pyResolve
      rw [if_neg (by decide)]
      simp
    rw [e1, e2]
    rw [if_neg (by simp [linspaceQ_length]), if_neg (by simp [linspaceQ_length])]
  rw [hatt]
  rfl

/-! ### C4: degenerate durations -/

/-- C4: the claim that every non-positive duration yields an empty buffer
without an error is contradicted by the code: at `duration = -1` the sample
count `int(44100 * -1) = -44100` is negative and `np.linspace` raises
`ValueError`, and at `duration = 0` with the default config the empty
envelope cannot receive the 220-sample attack ramp, so full synthesis
raises a broadcast `ValueError` instead of returning an empty PCM buffer. -/
theorem c4_degenerate_duration_crashes :
    generateWaveform 440 (-1) "sine" = .error .valueError ∧
    synthesizeNote ['A', '4'] (8/10) 0 defaultConfig = .error .valueError := by
  constructor
  · have hsc : sampleCount (-1) = -44100 := by
      unfold sampleCount pyInt SAMPLE_RATE
      rw [if_neg (by norm_num)]
      rw [show ((44100 : ℚ) * (-1)) = ((-44100 : ℤ) : ℚ) by norm_num, Int.ceil_intCast]
    unfold generateWaveform npLinspace
    rw [if_pos (by rw [hsc]; decide)]
    rfl
  · unfold synthesizeNote
    rw [resolveFrequency_A4]
    simp only [bind_ok_eq]
    have hsc : sampleCount 0 = 0 := by
      unfold sampleCount pyInt SAMPLE_RATE
      rw [if_pos (by norm_num)]
      norm_num
    have hwave : generateWaveform ((440 : ℚ) * (2 : ℚ) ^ ((((52 : ℕ) : ℤ) - 48) - 4)) 0
        defaultConfig.waveform =
        .ok ((sampleTimes 0).map
          (srcSample defaultConfig.waveform
            ((440 : ℚ) * (2 : ℚ) ^ ((((52 : ℕ) : ℤ) - 48) - 4)))) := by
      unfold generateWaveform npLinspace
      rw [if_neg (by rw [hsc]; decide)]
      rfl
    rw [hwave]
    simp only [bind_ok_eq]
    have hlen : ((sampleTimes 0).map
        (srcSample defaultConfig.waveform
          ((440 : ℚ) * (2 : ℚ) ^ ((((52 : ℕ) : ℤ) - 48) - 4)))).length = 0 := by
      rw [List.length_map]
      unfold sampleTimes
      rw [linspaceQ_length, hsc]
      rfl
    unfold applyAdsrEnvelope applyAdsrCounts
    rw [hlen, attackSamples_default]
    have hatt : adsrAttack (220 : ℤ) (List.replicate 0 (1 : ℚ)) = .error .valueError := by
      unfold adsrAttack
      rw [if_pos (by decide)]
      unfold pySliceAssign
      have e1 : pyResolve 0 (List.replicate 0 (1 : ℚ)).length = 0 := by
        simp [pyResolve]
      have e2 : pyResolve 220 (List.replicate 0 (1 : ℚ)).length = 0 := by
        unfold pyResolve
        rw [if_neg (by decide)]
        simp
      rw [e1, e2]
      rw [if_neg (by simp [linspaceQ_length]), if_neg (by simp [linspaceQ_length])]
    rw [hatt]
    rfl

/-! ### C10: notes end at silence -/

theorem zipWith_getD (f : ℝ → ℚ → ℝ) (a : List ℝ) (b : List ℚ) (i : ℕ)
    (ha : i < a.length) (hb : i < b.length) (d : ℝ) (da : ℝ) (db : ℚ) :
    (List.zipWith f a b).getD i d = f (a.getD i da) (b.getD i db) := by
  rw [List.getD_eq_getElem _ d (by simp [List.length_zipWith]; omega)]
  rw [List.getElem_zipWith]
  rw [List.getD_eq_getElem a da ha, List.getD_eq_getElem b db hb]

theorem map_getD {α β : Type} (f : α → β) (l : List α) (i : ℕ) (h : i < l.length)
    (d : β) (d' : α) : (l.map f).getD i d = f (l.getD i d') := by
  rw [List.getD_eq_getElem _ d (by simpa), List.getElem_map, List.getD_eq_getElem l d' h]

theorem linVal_last (s : ℚ) (r : ℕ) (h : 2 ≤ r) : linVal s 0 r (r - 1) = 0 := by
  unfold linVal
  have h1 : (1 : ℕ) ≤ r := by omega
  rw [Nat.cast_sub h1]
  have hne : (r : ℚ) - 1 ≠ 0 := by
    have : (2 : ℚ) ≤ (r : ℚ) := by exact_mod_cast h
    intro heq
    linarith
  rw [Nat.cast_one, mul_div_cancel_left₀ _ hne]
  ring

theorem applyAdsrCounts_ok_last_zero {aN dN rN : ℤ} {s v : ℚ} {w out : List ℝ}
    (h : applyAdsrCounts aN dN rN s v w = .ok out)
    (h2 : 2 ≤ rN) (hRle : rN ≤ (w.length : ℤ)) :
    out.getD (w.length - 1) 0 = 0 := by
  unfold applyAdsrCounts at h
  cases h1 : adsrAttack aN (List.replicate w.length 1) with
  | error e => rw [h1, bind_error_eq] at h; cases h
  | ok env1 =>
  rw [h1, bind_ok_eq] at h
  cases hd : adsrDecay aN dN s w.length env1 with
  | error e => rw [hd, bind_error_eq] at h; cases h
  | ok env2 =>
  rw [hd, bind_ok_eq] at h
  cases hre : adsrRelease rN s w.length (adsrSustainStep aN dN rN s w.length env2) with
  | error e => rw [hre, map_error_eq] at h; cases h
  | ok env4 =>
  rw [hre, map_ok_eq] at h
  cases h
  have l1 : env1.length = w.length := by simpa using adsrAttack_ok_length h1
  have l2 : env2.length = w.length := by rw [adsrDecay_ok_length hd, l1]
  have l3 : (adsrSustainStep aN dN rN s w.length env2).length = w.length := by
    rw [adsrSustainStep_length, l2]
  have l4 : env4.length = w.length := by rw [adsrRelease_ok_length hre, l3]
  have hrw : rN = (rN.toNat : ℤ) := by omega
  unfold adsrRelease at hre
  rw [if_pos (by omega)] at hre
  unfold pySliceAssign at hre
  have e1 : pyResolve (-rN) (adsrSustainStep aN dN rN s w.length env2).length =
      w.length - rN.toNat := by
    rw [l3, hrw]
    exact pyResolve_of_neg rN.toNat w.length (by omega) (by omega)
  have e2 : pyResolve (w.length : ℤ) (adsrSustainStep aN dN rN s w.length env2).length =
      w.length := by
    rw [l3, pyResolve_of_nonneg _ _ (Int.natCast_nonneg _) le_rfl, Int.toNat_natCast]
  rw [e1, e2] at hre
  rw [if_pos (by simp [linspaceQ_length]; omega)] at hre
  have henv4 : env4 = setSeg (adsrSustainStep aN dN rN s w.length env2)
      (w.length - rN.toNat) (linspaceQ s 0 rN.toNat) := by
    cases hre
    rfl
  have hz : env4.getD (w.length - 1) 1 = 0 := by
    rw [henv4, setSeg_getD _ _ _ (by simp [linspaceQ_length, l3]; omega)]
    rw [if_pos (by simp [linspaceQ_length]; omega)]
    rw [linspaceQ_getD _ _ _ _ (by omega)]
    rw [show w.length - 1 - (w.length - rN.toNat) = rN.toNat - 1 by omega]
    exact linVal_last s rN.toNat (by omega)
  rw [zipWith_getD _ w env4 (w.length - 1) (by omega) (by omega) 0 0 1]
  rw [hz]
  push_cast
  ring

/-- C10: whenever the release count is at least 2 and the release and attack
counts fit in the buffer, any successfully synthesized PCM buffer ends with
the sample 0: the note ends at exact silence for every note, waveform,
velocity, sustain and volume. -/
theorem c10_ends_at_silence (note : List Char) (velocity duration : ℚ) (cfg : SynthConfig)
    (h2 : 2 ≤ releaseSamples cfg)
    (hRle : releaseSamples cfg ≤ ((sampleCount duration).toNat : ℤ))
    (_hAle : attackSamples cfg ≤ ((sampleCount duration).toNat : ℤ)) :
    ∀ pcm, synthesizeNote note velocity duration cfg = .ok pcm →
      pcm.getLast? = some 0 := by
  intro pcm h
  unfold synthesizeNote at h
  cases hf : resolveFrequency note with
  | error e => rw [hf, bind_error_eq] at h; cases h
  | ok freq =>
  rw [hf, bind_ok_eq] at h
  cases hw : generateWaveform freq duration cfg.waveform with
  | error e => rw [hw, bind_error_eq] at h; cases h
  | ok wave =>
  rw [hw, bind_ok_eq] at h
  have hwl : wave.length = (sampleCount duration).toNat := by
    unfold generateWaveform npLinspace at hw
    split at hw
    · rw [map_error_eq] at hw
      cases hw
    · rw [map_ok_eq] at hw
      cases hw
      simp [sampleTimes, linspaceQ_length]
  cases he : applyAdsrEnvelope cfg wave duration with
  | error e => rw [he, map_error_eq] at h; cases h
  | ok env =>
  rw [he, map_ok_eq] at h
  cases h
  have he2 : applyAdsrCounts (attackSamples cfg) (decaySamples cfg) (releaseSamples cfg)
      cfg.sustain cfg.volume wave = .ok env := he
  have hel : env.length = wave.length := applyAdsrCounts_ok_length he2
  have hzero : env.getD (wave.length - 1) 0 = 0 :=
    applyAdsrCounts_ok_last_zero he2 h2 (by rw [hwl]; exact hRle)
  have hn : 2 ≤ wave.length := by omega
  rw [List.getLast?_eq_getElem?]
  have hplen : ((env.map fun x => x * (velocity : ℝ)).map fun x =>
      npInt16 (x * 32767)).length = wave.length := by
    simp [hel]
  rw [hplen]
  rw [List.getElem?_eq_getElem (by simp [hel]; omega)]
  rw [← List.getD_eq_getElem _ 0 (by simp [hel]; omega)]
  have hval : ((env.map fun x => x * (velocity : ℝ)).map fun x =>
      npInt16 (x * 32767)).getD (wave.length - 1) 0 =
      npInt16 (env.getD (wave.length - 1) 0 * (velocity : ℝ) * 32767) := by
    rw [map_getD _ _ _ (by simp [hel]; omega) 0 0]
    rw [map_getD _ _ _ (by omega) 0 0]
  rw [hval, hzero]
  rw [show (0 : ℝ) * (velocity : ℝ) * 32767 = 0 by ring]
  unfold npInt16 pyIntR
  rw [if_pos le_rfl, Int.floor_zero]
  decide

/-- C10 (witness): a concrete config with attack count 0 and release count 4
on a 4-sample note. -/
theorem c10_witness :
    (2 ≤ releaseSamples ⟨0, 0, 1/2, 1/11025, "sine", 1/2⟩ ∧
      releaseSamples ⟨0, 0, 1/2, 1/11025, "sine", 1/2⟩ ≤
        ((sampleCount (1/11025)).toNat : ℤ) ∧
      attackSamples ⟨0, 0, 1/2, 1/11025, "sine", 1/2⟩ ≤
        ((sampleCount (1/11025)).toNat : ℤ)) ∧
    ∀ pcm, synthesizeNote ['A'] 1 (1/11025) ⟨0, 0, 1/2, 1/11025, "sine", 1/2⟩ = .ok pcm →
      pcm.getLast? = some 0 := by
  have hr : releaseSamples ⟨0, 0, 1/2, 1/11025, "sine", 1/2⟩ = 4 := by
    unfold releaseSamples pyInt SAMPLE_RATE
    rw [if_pos (by norm_num)]
    norm_num
  have ha : attackSamples ⟨0, 0, 1/2, 1/11025, "sine", 1/2⟩ = 0 := by
    unfold attackSamples pyInt SAMPLE_RATE
    rw [if_pos (by norm_num)]
    norm_num
  have hs : sampleCount (1/11025) = 4 := by
    unfold sampleCount pyInt SAMPLE_RATE
    rw [if_pos (by norm_num)]
    norm_num
  exact ⟨⟨by rw [hr]; decide, by rw [hr, hs]; decide, by rw [ha, hs]; decide⟩,
    c10_ends_at_silence ['A'] 1 (1/11025) ⟨0, 0, 1/2, 1/11025, "sine", 1/2⟩
      (by rw [hr]; decide) (by rw [hr, hs]; decide) (by rw [ha, hs]; decide)⟩

/-! ### C8: octave doubling -/

theorem digitChar_isDigit {o : ℕ} (h : o ≤ 9) : (Nat.digitChar o).isDigit = true := by
  interval_cases o <;> decide

theorem digitChar_toNat {o : ℕ} (h : o ≤ 9) : ((Nat.digitChar o).toNat : ℤ) = 48 + o := by
  interval_cases o <;> decide

theorem resolveFrequency_append_digit (name : List Char) (o : ℕ) (h : o ≤ 9) :
    resolveFrequency (name ++ [Nat.digitChar o]) =
      .ok ((noteFreq? name).getD 440 * (2 : ℚ) ^ ((o : ℤ) - 4)) := by
  unfold resolveFrequency
  rw [show (name ++ [Nat.digitChar o]).getLast? = some (Nat.digitChar o) from by
    simp [List.getLast?_append]]
  simp only [digitChar_isDigit h, if_true]
  rw [show (name ++ [Nat.digitChar o]).dropLast = name from by simp]
  rw [show ((Nat.digitChar o).toNat : ℤ) - 48 = (o : ℤ) from by rw [digitChar_toNat h]; ring]

/-- C8: for every known pitch class and consecutive single-digit octaves the
resolved frequency doubles, and both spellings of A4 resolve to exactly
440 Hz, matching the formula `base * 2 ^ (octave - 4)`. -/
theorem c8_octave_doubling :
    (∀ name ∈ NOTE_FREQUENCIES.map Prod.fst, ∀ o : ℕ, o ≤ 8 →
      ∃ lo hi : ℚ, resolveFrequency (name ++ [Nat.digitChar o]) = .ok lo ∧
        resolveFrequency (name ++ [Nat.digitChar (o + 1)]) = .ok hi ∧ hi = 2 * lo) ∧
    resolveFrequency ['A'] = .ok 440 ∧ resolveFrequency ['A', '4'] = .ok 440 := by
  refine ⟨?_, ?_, ?_⟩
  · intro name _ o ho
    refine ⟨_, _, resolveFrequency_append_digit name o (by omega),
      resolveFrequency_append_digit name (o + 1) (by omega), ?_⟩
    rw [show (((o + 1 : ℕ)) : ℤ) - 4 = ((o : ℤ) - 4) + 1 by push_cast; ring,
      zpow_add_one₀ (by norm_num : (2 : ℚ) ≠ 0)]
    ring
  · have h : resolveFrequency ['A'] = .ok ((440 : ℚ) * (2 : ℚ) ^ ((4 : ℤ) - 4)) := rfl
    rw [h]
    norm_num
  · have h : resolveFrequency ['A', '4'] =
        .ok ((440 : ℚ) * (2 : ℚ) ^ ((((52 : ℕ) : ℤ) - 48) - 4)) := rfl
    rw [h]
    norm_num

/-- C8 (witness): instance at pitch class C, octaves 3 and 4. -/
theorem c8_witness :
    (['C'] ∈ NOTE_FREQUENCIES.map Prod.fst ∧ (3 : ℕ) ≤ 8) ∧
    (∃ lo hi : ℚ, resolveFrequency (['C'] ++ [Nat.digitChar 3]) = .ok lo ∧
      resolveFrequency (['C'] ++ [Nat.digitChar (3 + 1)]) = .ok hi ∧ hi = 2 * lo) :=
  ⟨⟨by decide, by decide⟩, c8_octave_doubling.1 ['C'] (by decide) 3 (by decide)⟩

/-! ### C9: waveform formulas -/

theorem srcSample_eq_claimFormula (kind : String) (f t : ℚ) :
    srcSample kind f t = claimFormula kind ((f * t : ℚ) : ℝ) := by
  have harg : 2 * Real.pi * (f : ℝ) * (t : ℝ) = 2 * Real.pi * ((f * t : ℚ) : ℝ) := by
    push_cast
    ring
  have harg2 : (t : ℝ) * (f : ℝ) = ((f * t : ℚ) : ℝ) := by
    push_cast
    ring
  unfold srcSample claimFormula
  by_cases h1 : kind = "sine"
  · subst h1
    simp [harg]
  · by_cases h2 : kind = "square"
    · subst h2
      simp [harg]
    · by_cases h3 : kind = "sawtooth"
      · subst h3
        simp [harg2]
      · by_cases h4 : kind = "triangle"
        · subst h4
          simp [harg2]
        · simp [h1, h2, h3, h4, harg]

/-- C9: for every frequency, positive duration and waveform kind, the
generated buffer is exactly the claimed formula applied at phase
`frequency * t` over the linspace time grid; unrecognized kinds produce the
sine output. -/
theorem c9_waveform_formulas : ∀ (f d : ℚ) (kind : String), 0 < d →
    generateWaveform f d kind =
      .ok ((sampleTimes d).map fun t => claimFormula kind ((f * t : ℚ) : ℝ)) := by
  intro f d kind hd
  unfold generateWaveform npLinspace
  have hnn : 0 ≤ sampleCount d := pyInt_nonneg (by unfold SAMPLE_RATE; positivity)
  rw [if_neg (by omega)]
  rw [show (Except.ok (linspaceQ 0 d (sampleCount d).toNat) : Except PyError (List ℚ)).map
      (fun ts => ts.map (srcSample kind f)) =
      .ok ((sampleTimes d).map (srcSample kind f)) from rfl]
  congr 1
  exact List.map_congr_left fun t _ => srcSample_eq_claimFormula kind f t

/-- C9 (witness): instance at frequency 440, duration 1, kind sine. -/
theorem c9_witness :
    (0 < (1 : ℚ)) ∧
    generateWaveform 440 1 "sine" =
      .ok ((sampleTimes 1).map fun t => claimFormula "sine" ((440 * t : ℚ) : ℝ)) :=
  ⟨by norm_num, c9_waveform_formulas 440 1 "sine" (by norm_num)⟩
